import Mathlib

/-!
Verification of the streaming trace reducer in `src/agent_trace.py`
(`BedrockLangfuseTracer`).  The Python code is shallowly embedded:

* Python values flowing through the reducer are modelled by the closed
  tagged union `PyValue` (text, bytes, integers, booleans, `None`, lists
  and string-keyed dictionaries).
* Dynamic attribute/item access (`.get`, `in`, `[...]`) is modelled by
  total Lean functions returning `Except String _`, where the `error`
  case models the Python exception (with its message) that the concrete
  operation raises on an ill-typed operand.
* The Langfuse sink calls performed by the tracer are recorded in order
  as an `Action` list; sink operations themselves are assumed not to
  fail (the sink is an external collaborator, out of scope per the
  spec).  Fresh Langfuse object handles (spans, generations) are
  modelled as natural-number ids threaded through the processors.
* Python standard-library helpers used by the code (`json.loads`,
  `json.dumps`, `bytes.decode("utf-8")`, `str(...)`) are modelled by
  executable Lean functions: an integer-fragment JSON parser and
  serializer and a UTF-8 decoder.  Exception messages are modelled
  without quote characters.
-/

namespace AgentTrace

/-- Closed tagged union of the Python values the tracer manipulates:
text, bytes, integers, booleans, `None`, lists, and string-keyed
dictionaries.  JSON numbers are modelled as integers. -/
inductive PyValue where
  | null : PyValue
  | bool : Bool → PyValue
  | num : Int → PyValue
  | str : String → PyValue
  | bytes : List Nat → PyValue
  | arr : List PyValue → PyValue
  | obj : List (String × PyValue) → PyValue

/-- First-match association-list lookup; models Python dictionary key
lookup (dictionaries have unique keys, so first match is the match). -/
def alookup (kvs : List (String × PyValue)) (k : String) : Option PyValue :=
  match kvs with
  | [] => none
  | (k', v) :: rest => if k' = k then some v else alookup rest k

/-- Lookup with a default: models `dict.get(k, default)` on a value
already known to be a dictionary. -/
def getD (kvs : List (String × PyValue)) (k : String) (d : PyValue) : PyValue :=
  match alookup kvs k with
  | some v => v
  | none => d

/-- Python runtime type name of a modelled value (used in modelled
exception messages). -/
def typeName : PyValue → String
  | .null => "NoneType"
  | .bool _ => "bool"
  | .num _ => "int"
  | .str _ => "str"
  | .bytes _ => "bytes"
  | .arr _ => "list"
  | .obj _ => "dict"

/-- Decidable substring test on character lists (needle occurs
contiguously in the haystack). -/
def hasSubstr (needle : List Char) : List Char → Bool
  | [] => needle.isEmpty
  | c :: rest => needle.isPrefixOf (c :: rest) || hasSubstr needle rest

/-- Models `x.get(k, default)`: succeeds on a dictionary, raises
`AttributeError` (modelled message, quotes omitted) on anything else. -/
def dictGet (x : PyValue) (k : String) (d : PyValue) : Except String PyValue :=
  match x with
  | .obj kvs => .ok (getD kvs k d)
  | v => .error (typeName v ++ " object has no attribute get")

/-- Models the Python expression `k in x` for a string `k`: key test on
dictionaries, substring test on strings, element-equality test on lists,
`TypeError` on non-iterable values. -/
def pyContainsE (k : String) (x : PyValue) : Except String Bool :=
  match x with
  | .obj kvs => .ok (alookup kvs k).isSome
  | .str s => .ok (hasSubstr k.data s.data)
  | .arr xs => .ok (xs.any fun v => match v with | .str t => t == k | _ => false)
  | v => .error ("argument of type " ++ typeName v ++ " is not iterable")

/-- Models the Python subscript `x[k]` for a string key `k`:
dictionary lookup (`KeyError` when absent), `TypeError` otherwise. -/
def pyGetItem (x : PyValue) (k : String) : Except String PyValue :=
  match x with
  | .obj kvs =>
    match alookup kvs k with
    | some v => .ok v
    | none => .error ("KeyError: " ++ k)
  | .str _ => .error "string indices must be integers"
  | .arr _ => .error "list indices must be integers or slices, not str"
  | v => .error (typeName v ++ " object is not subscriptable")

/-- Strict UTF-8 decoder over a byte list; models
`bytes.decode("utf-8")`, returning `none` where CPython raises
`UnicodeDecodeError` (stray continuation bytes, truncated sequences,
overlong encodings, surrogates, out-of-range code points). -/
def utf8Decode : List Nat → Option (List Char)
  | [] => some []
  | b :: rest =>
    if b < 0x80 then
      (utf8Decode rest).map (fun cs => Char.ofNat b :: cs)
    else if b < 0xC2 then
      none
    else if b < 0xE0 then
      match rest with
      | c1 :: r =>
        if 0x80 ≤ c1 ∧ c1 < 0xC0 then
          let cp := (b - 0xC0) * 0x40 + (c1 - 0x80)
          (utf8Decode r).map (fun cs => Char.ofNat cp :: cs)
        else none
      | _ => none
    else if b < 0xF0 then
      match rest with
      | c1 :: c2 :: r =>
        if (0x80 ≤ c1 ∧ c1 < 0xC0) ∧ (0x80 ≤ c2 ∧ c2 < 0xC0) then
          let cp := (b - 0xE0) * 0x1000 + (c1 - 0x80) * 0x40 + (c2 - 0x80)
          if 0x800 ≤ cp ∧ ¬ (0xD800 ≤ cp ∧ cp ≤ 0xDFFF) then
            (utf8Decode r).map (fun cs => Char.ofNat cp :: cs)
          else none
        else none
      | _ => none
    else if b < 0xF5 then
      match rest with
      | c1 :: c2 :: c3 :: r =>
        if (0x80 ≤ c1 ∧ c1 < 0xC0) ∧ (0x80 ≤ c2 ∧ c2 < 0xC0) ∧
            (0x80 ≤ c3 ∧ c3 < 0xC0) then
          let cp := (b - 0xF0) * 0x40000 + (c1 - 0x80) * 0x1000 +
            (c2 - 0x80) * 0x40 + (c3 - 0x80)
          if 0x10000 ≤ cp ∧ cp ≤ 0x10FFFF then
            (utf8Decode r).map (fun cs => Char.ofNat cp :: cs)
          else none
        else none
      | _ => none
    else none

/-- Whitespace skipping for the JSON parser (space, tab, newline,
carriage return, as in the JSON grammar). -/
def skipWs : List Char → List Char
  | c :: rest =>
    if c = ' ' || c = '\t' || c = '\n' || c = '\r' then skipWs rest else c :: rest
  | [] => []

/-- JSON string-body parser (called after the opening quote): consumes
up to the closing quote, handling the basic escapes; rejects control
characters and the escapes outside the modelled fragment. -/
def parseStrAux (acc : List Char) : List Char → Option (String × List Char)
  | [] => none
  | c :: rest =>
    if c.toNat = 34 then some (String.mk acc.reverse, rest)
    else if c.toNat = 92 then
      match rest with
      | [] => none
      | e :: rest2 =>
        if e.toNat = 34 then parseStrAux (Char.ofNat 34 :: acc) rest2
        else if e.toNat = 92 then parseStrAux (Char.ofNat 92 :: acc) rest2
        else if e.toNat = 47 then parseStrAux (Char.ofNat 47 :: acc) rest2
        else if e = 'n' then parseStrAux ('\n' :: acc) rest2
        else if e = 't' then parseStrAux ('\t' :: acc) rest2
        else if e = 'r' then parseStrAux ('\r' :: acc) rest2
        else none
    else if c.toNat < 0x20 then none
    else parseStrAux (c :: acc) rest

/-- Is the character an ASCII decimal digit? -/
def isDigitCh (c : Char) : Bool := 48 ≤ c.toNat && c.toNat ≤ 57

/-- Consume a maximal run of decimal digits, accumulating their value. -/
def digitsToNat (acc : Nat) : List Char → Nat × List Char
  | c :: rest =>
    if isDigitCh c then digitsToNat (acc * 10 + (c.toNat - 48)) rest
    else (acc, c :: rest)
  | [] => (acc, [])

/-- A parsed number must not be followed by a fraction or exponent
marker: the modelled JSON fragment is integer-only. -/
def afterNumOk : List Char → Bool
  | c :: _ => !(c.toNat = 46 || c = 'e' || c = 'E')
  | [] => true

/-- Integer parser for the JSON fragment (optional minus sign, then
digits). -/
def parseNum : List Char → Option (Int × List Char)
  | [] => none
  | c :: rest =>
    if c.toNat = 45 then
      match rest with
      | d :: _ =>
        if isDigitCh d then
          let p := digitsToNat 0 rest
          if afterNumOk p.2 then some (-(p.1 : Int), p.2) else none
        else none
      | [] => none
    else if isDigitCh c then
      let p := digitsToNat 0 (c :: rest)
      if afterNumOk p.2 then some ((p.1 : Int), p.2) else none
    else none

mutual

/-- Recursive-descent JSON value parser (fuel-indexed), modelling
`json.loads` on the integer fragment of JSON used by the tracer. -/
def parseVal : Nat → List Char → Option (PyValue × List Char)
  | 0, _ => none
  | fuel + 1, cs =>
    match skipWs cs with
    | [] => none
    | c :: rest =>
      if c.toNat = 34 then
        (parseStrAux [] rest).map fun p => (.str p.1, p.2)
      else if c.toNat = 91 then
        match skipWs rest with
        | d :: r2 =>
          if d.toNat = 93 then some (.arr [], r2)
          else (parseElems fuel (d :: r2)).map fun p => (.arr p.1, p.2)
        | [] => none
      else if c.toNat = 123 then
        match skipWs rest with
        | d :: r2 =>
          if d.toNat = 125 then some (.obj [], r2)
          else (parseMembers fuel (d :: r2)).map fun p => (.obj p.1, p.2)
        | [] => none
      else if "null".data.isPrefixOf (c :: rest) then
        some (.null, (c :: rest).drop 4)
      else if "true".data.isPrefixOf (c :: rest) then
        some (.bool true, (c :: rest).drop 4)
      else if "false".data.isPrefixOf (c :: rest) then
        some (.bool false, (c :: rest).drop 5)
      else
        (parseNum (c :: rest)).map fun p => (.num p.1, p.2)

/-- Array-element list parser (after the opening bracket, nonempty). -/
def parseElems : Nat → List Char → Option (List PyValue × List Char)
  | 0, _ => none
  | fuel + 1, cs =>
    match parseVal fuel cs with
    | none => none
    | some (v, r) =>
      match skipWs r with
      | c :: r2 =>
        if c.toNat = 44 then
          (parseElems fuel r2).map fun p => (v :: p.1, p.2)
        else if c.toNat = 93 then some ([v], r2)
        else none
      | [] => none

/-- Object-member list parser (after the opening brace, nonempty). -/
def parseMembers : Nat → List Char → Option (List (String × PyValue) × List Char)
  | 0, _ => none
  | fuel + 1, cs =>
    match skipWs cs with
    | c :: r =>
      if c.toNat = 34 then
        match parseStrAux [] r with
        | none => none
        | some (k, r2) =>
          match skipWs r2 with
          | d :: r3 =>
            if d.toNat = 58 then
              match parseVal fuel r3 with
              | none => none
              | some (v, r4) =>
                match skipWs r4 with
                | e2 :: r5 =>
                  if e2.toNat = 44 then
                    (parseMembers fuel r5).map fun p => ((k, v) :: p.1, p.2)
                  else if e2.toNat = 125 then some ([(k, v)], r5)
                  else none
                | [] => none
            else none
          | [] => none
      else none
    | [] => none

end

/-- Models `json.loads` on a text payload: parse one value and require
only trailing whitespace after it; `none` models `JSONDecodeError`. -/
def json_loads (s : String) : Option PyValue :=
  match parseVal (2 * s.length + 8) s.data with
  | some (v, r) => if (skipWs r).isEmpty then some v else none
  | none => none

/-- Single-quote character as a string. -/
def sq : String := String.singleton (Char.ofNat 39)

/-- Double-quote character as a string. -/
def dq : String := String.singleton (Char.ofNat 34)

/-- Backslash character as a string. -/
def bsl : String := String.singleton (Char.ofNat 92)

/-- Lower-case hexadecimal digit. -/
def hexDigit (n : Nat) : Char := if n < 10 then Char.ofNat (48 + n) else Char.ofNat (87 + n)

/-- One byte of the Python `bytes` repr: printable ASCII shown
directly, tab/newline/return and quote/backslash escaped, the rest as
hex escapes. -/
def byteReprPiece (b : Nat) : String :=
  if b = 9 then bsl ++ "t"
  else if b = 10 then bsl ++ "n"
  else if b = 13 then bsl ++ "r"
  else if b = 39 then bsl ++ sq
  else if b = 92 then bsl ++ bsl
  else if 32 ≤ b && b < 127 then String.singleton (Char.ofNat b)
  else bsl ++ "x" ++ String.singleton (hexDigit (b / 16 % 16)) ++ String.singleton (hexDigit (b % 16))

/-- Models `str(b)` for a Python bytes value: its repr. -/
def bytesRepr (bs : List Nat) : String :=
  "b" ++ sq ++ String.join (bs.map byteReprPiece) ++ sq

mutual

/-- Models Python `repr` of the modelled values (quote-escaping inside
strings is not modelled). -/
def pyRepr : PyValue → String
  | .null => "None"
  | .bool true => "True"
  | .bool false => "False"
  | .num n => toString n
  | .str s => sq ++ s ++ sq
  | .bytes bs => bytesRepr bs
  | .arr xs => "[" ++ String.intercalate ", " (pyReprList xs) ++ "]"
  | .obj kvs => "\x7b" ++ String.intercalate ", " (pyReprObj kvs) ++ "\x7d"

/-- Element reprs of a Python list. -/
def pyReprList : List PyValue → List String
  | [] => []
  | x :: xs => pyRepr x :: pyReprList xs

/-- Member reprs of a Python dict. -/
def pyReprObj : List (String × PyValue) → List String
  | [] => []
  | (k, v) :: rest => (sq ++ k ++ sq ++ ": " ++ pyRepr v) :: pyReprObj rest

end

/-- Models Python `str(...)`: identity on text, repr on everything
else (in particular on bytes and containers). -/
def pyStr : PyValue → String
  | .str s => s
  | v => pyRepr v

/-- JSON escaping of one character for the serializer. -/
def jsonEscapeChar (c : Char) : String :=
  if c.toNat = 34 then bsl ++ dq
  else if c.toNat = 92 then bsl ++ bsl
  else if c = '\n' then bsl ++ "n"
  else if c = '\t' then bsl ++ "t"
  else if c = '\r' then bsl ++ "r"
  else String.singleton c

/-- JSON string literal serialization. -/
def jsonDumpStr (s : String) : String :=
  dq ++ String.join (s.data.map jsonEscapeChar) ++ dq

mutual

/-- Models `json.dumps(v, ensure_ascii=False)`: serialization of the
modelled values, raising `TypeError` (the `error` case) on bytes, which
are not JSON serializable. -/
def jsonDumps : PyValue → Except String String
  | .null => .ok "null"
  | .bool true => .ok "true"
  | .bool false => .ok "false"
  | .num n => .ok (toString n)
  | .str s => .ok (jsonDumpStr s)
  | .bytes _ => .error "Object of type bytes is not JSON serializable"
  | .arr xs => do
    let ss ← jsonDumpsList xs
    .ok ("[" ++ String.intercalate ", " ss ++ "]")
  | .obj kvs => do
    let ss ← jsonDumpsObj kvs
    .ok ("\x7b" ++ String.intercalate ", " ss ++ "\x7d")

/-- Serialization of the elements of a list value. -/
def jsonDumpsList : List PyValue → Except String (List String)
  | [] => .ok []
  | x :: xs => do
    let s ← jsonDumps x
    let ss ← jsonDumpsList xs
    .ok (s :: ss)

/-- Serialization of the members of a dict value. -/
def jsonDumpsObj : List (String × PyValue) → Except String (List String)
  | [] => .ok []
  | (k, v) :: rest => do
    let s ← jsonDumps v
    let ss ← jsonDumpsObj rest
    .ok ((jsonDumpStr k ++ ": " ++ s) :: ss)

end

/-- Embedding of `BedrockLangfuseTracer._safe_json_loads`: text is
JSON-parsed, wrapping unparseable text as a content dict; bytes are
UTF-8 decoded then parsed, wrapping either failure as a content dict
around the bytes repr; dicts pass through; anything else is wrapped as
a content dict around its `str(...)`. -/
def _safe_json_loads (data : PyValue) : PyValue :=
  match data with
  | .str s =>
    match json_loads s with
    | some v => v
    | none => .obj [("content", .str s)]
  | .bytes bs =>
    match (utf8Decode bs).bind (fun cs => json_loads (String.mk cs)) with
    | some v => v
    | none => .obj [("content", .str (pyStr (.bytes bs)))]
  | .obj kvs => .obj kvs
  | v => .obj [("content", .str (pyStr v))]

/-- One call on the Langfuse sink, recorded in call order.  Handles
returned by the sink (the trace object, spans, generations) are
modelled as the `String` trace id and `Nat` span/generation ids. -/
inductive Action where
  | createTrace (id name input : String) (metadata : PyValue)
  | openSpan (id : Nat) (name input : String)
  | invokeAgent (agentId agentAliasId : Option String) (sessionId : String)
      (enableTrace : Bool) (inputText : String)
  | openGeneration (id parent : Nat) (name model : String)
      (modelParameters input metadata : PyValue)
  | closeGeneration (id : Nat) (output usageDetails : PyValue)
  | emitEvent (parent : Nat) (name : String) (input : PyValue)
      (metadata : Option PyValue)
  | openChildSpan (id parent : Nat) (name : String) (input metadata : PyValue)
  | closeSpan (id : Nat) (error : Option String)
  | traceUpdate (metadata : PyValue)

/-- Result of one processing step: the next fresh handle id, the sink
calls made (also the ones made before an exception), and the message of
the exception that escaped the step, if any. -/
abbrev PRes := Nat × List Action × Option String

/-- Evaluate one fallible Python expression: on an exception nothing is
emitted by this step and the exception propagates; otherwise continue
with the value. -/
def readP {α : Type} (n : Nat) (x : Except String α) (k : α → PRes) : PRes :=
  match x with
  | .error e => (n, [], some e)
  | .ok v => k v

/-- Sequence two processing steps: sink calls of the first step are
kept in front of whatever the second step does; an exception in the
first step skips the second. -/
def seqP (p : PRes) (k : Nat → PRes) : PRes :=
  match p.2.2 with
  | some _ => p
  | none => ((k p.1).1, p.2.1 ++ (k p.1).2.1, (k p.1).2.2)

/-- The `usage` computation of `_process_orchestration_trace`: an empty
dict unless the output carries `metadata.usage`, in which case the
input/output token counts (defaulting to 0) with unit `"TOKENS"`. -/
def usageOf (output : PyValue) : Except String PyValue :=
  match pyContainsE "metadata" output with
  | .error e => .error e
  | .ok false => .ok (.obj [])
  | .ok true =>
    match pyGetItem output "metadata" with
    | .error e => .error e
    | .ok meta =>
      match pyContainsE "usage" meta with
      | .error e => .error e
      | .ok false => .ok (.obj [])
      | .ok true =>
        match pyGetItem meta "usage" with
        | .error e => .error e
        | .ok usage =>
          match dictGet usage "inputTokens" (.num 0) with
          | .error e => .error e
          | .ok ui =>
            match dictGet usage "outputTokens" (.num 0) with
            | .error e => .error e
            | .ok uo =>
              .ok (.obj [("input", ui), ("output", uo), ("unit", .str "TOKENS")])

/-- Embedding of `BedrockLangfuseTracer._process_observation`: emits a
`final_response` point event and/or an immediately closed collaborator
child span, following the source statement order. -/
def _process_observation (parent n : Nat) (observation : PyValue) : PRes :=
  readP n (dictGet observation "traceId" (.str "")) fun trace_id =>
  readP n (dictGet observation "type" (.str "")) fun obs_type =>
  readP n (pyContainsE "finalResponse" observation) fun hasFinal =>
  seqP
    (if hasFinal then
      readP n (pyGetItem observation "finalResponse") fun fr =>
      readP n (dictGet fr "text" (.str "")) fun txt =>
      (n, [.emitEvent parent "final_response" txt
        (some (.obj [("trace_id", trace_id), ("type", obs_type)]))], none)
    else (n, [], none)) fun n2 =>
  readP n2 (pyContainsE "agentCollaboratorInvocationOutput" observation) fun hasCollab =>
  if hasCollab then
    readP n2 (pyGetItem observation "agentCollaboratorInvocationOutput") fun output =>
    readP n2 (dictGet output "agentCollaboratorName" (.str "unknown")) fun cname =>
    readP n2 (dictGet output "output" (.obj [])) fun coutput =>
    readP n2 (jsonDumps coutput) fun cinput =>
    readP n2 (dictGet output "agentCollaboratorAliasArn" (.str "")) fun carn =>
    (n2 + 1,
      [.openChildSpan n2 parent ("collaborator_" ++ pyStr cname) (.str cinput)
        (.obj [("collaborator_arn", carn), ("trace_id", trace_id)]),
       .closeSpan n2 none], none)
  else (n2, [], none)

/-- The `modelInvocationInput` statement block of
`_process_orchestration_trace`: opens a Generation and, when the same
record also carries `modelInvocationOutput` (the source nests the
output handling inside the input branch), closes it with the normalized
raw response and the extracted usage. -/
def miiBlock (parent n : Nat) (ot : PyValue) : PRes :=
  readP n (pyContainsE "modelInvocationInput" ot) fun hasInput =>
  if hasInput then
    readP n (pyGetItem ot "modelInvocationInput") fun input_data =>
    readP n (dictGet input_data "inferenceConfiguration" (.obj [])) fun mp =>
    readP n (dictGet input_data "text" (.str "")) fun itext =>
    readP n (dictGet input_data "type" (.str "")) fun ity =>
    readP n (dictGet input_data "traceId" (.str "")) fun itid =>
    seqP
      (n + 1,
        [.openGeneration n parent "model_invocation" "bedrock-agent" mp itext
          (.obj [("type", ity), ("trace_id", itid)])], none) fun n2 =>
    readP n2 (pyContainsE "modelInvocationOutput" ot) fun hasOutput =>
    if hasOutput then
      readP n2 (pyGetItem ot "modelInvocationOutput") fun output =>
      readP n2 (dictGet output "rawResponse" (.obj [])) fun rr =>
      readP n2 (dictGet rr "content" (.str "")) fun content =>
      let raw_response := _safe_json_loads content
      readP n2 (usageOf output) fun usage =>
      readP n2 (jsonDumps raw_response) fun outStr =>
      (n2, [.closeGeneration n (.str outStr) usage], none)
    else (n2, [], none)
  else (n, [], none)

/-- The `rationale` statement block of `_process_orchestration_trace`:
emits a `rationale` point event. -/
def rationaleBlock (parent n : Nat) (ot : PyValue) : PRes :=
  readP n (pyContainsE "rationale" ot) fun hasRat =>
  if hasRat then
    readP n (pyGetItem ot "rationale") fun rat =>
    readP n (dictGet rat "text" (.str "")) fun rtext =>
    readP n (dictGet rat "traceId" (.str "")) fun rtid =>
    (n, [.emitEvent parent "rationale" rtext
      (some (.obj [("trace_id", rtid)]))], none)
  else (n, [], none)

/-- The `observation` statement block of
`_process_orchestration_trace`: dispatches to `_process_observation`. -/
def obsBlock (parent n : Nat) (ot : PyValue) : PRes :=
  readP n (pyContainsE "observation" ot) fun hasObs =>
  if hasObs then
    readP n (pyGetItem ot "observation") fun obs =>
    _process_observation parent n obs
  else (n, [], none)

/-- Embedding of `BedrockLangfuseTracer._process_orchestration_trace`:
the three statement blocks in source order. -/
def _process_orchestration_trace (parent n : Nat) (ot : PyValue) : PRes :=
  seqP (miiBlock parent n ot) fun n3 =>
  seqP (rationaleBlock parent n3 ot) fun n4 =>
  obsBlock parent n4 ot

/-- Embedding of `BedrockLangfuseTracer._process_trace_chunk`: navigate
`chunk -> "trace" -> "trace" -> "orchestrationTrace"` with `.get`
defaults and an `in` test, and process the orchestration trace when the
path is present. -/
def _process_trace_chunk (parent n : Nat) (chunk : PyValue) : PRes :=
  readP n (dictGet chunk "trace" (.obj [])) fun trace_data =>
  readP n (dictGet trace_data "trace" (.obj [])) fun inner =>
  readP n (pyContainsE "orchestrationTrace" inner) fun hasOt =>
  if hasOt then
    readP n (pyGetItem trace_data "trace") fun tt =>
    readP n (pyGetItem tt "orchestrationTrace") fun ot =>
    _process_orchestration_trace parent n ot
  else (n, [], none)

/-- Outcome of the external `bedrock.invoke_agent` collaborator call:
either the call itself raises, or it yields a stream of raw event
records followed, when iteration fails mid-stream, by an exception. -/
inductive AgentResponse where
  | failure (msg : String)
  | stream (events : List PyValue) (tailError : Option String)

/-- Result dictionary returned by `trace_agent_interaction`. -/
inductive AgentResult where
  | success (trace_id : String)
  | error (message : String)

/-- The per-event loop of `trace_agent_interaction`: each raw event is
routed through `_process_trace_chunk`; an exception escaping one event
is caught and recorded as a `chunk_processing_error` point event on the
root span, and the loop continues with the next event. -/
def runLoop (rootId n : Nat) (log : List Action) : List PyValue → Nat × List Action
  | [] => (n, log)
  | e :: rest =>
    let r := _process_trace_chunk rootId n e
    let log2 := log ++ r.2.1
    let log3 := match r.2.2 with
      | none => log2
      | some m => log2 ++ [.emitEvent rootId "chunk_processing_error" (.str m) none]
    runLoop rootId r.1 log3 rest

/-- `None`-tolerant conversion of an environment lookup to a payload
value. -/
def optStr : Option String → PyValue
  | none => .null
  | some s => .str s

/-- Embedding of `BedrockLangfuseTracer.trace_agent_interaction`.  The
ambient environment (`AGENT_ID`, `AGENT_ALIAS_ID`), the current
timestamp, and the freshly minted `uuid4` session id are parameters;
the external agent-backend call outcome is the `invoke` parameter.  The
function returns the ordered sink-call log and the result dictionary.
Sink calls are modelled as non-failing, so the totality of this
function models that no exception escapes `trace_agent_interaction`. -/
def trace_agent_interaction (agentId agentAliasId : Option String)
    (timestamp sessionId inputText : String) (invoke : AgentResponse) :
    List Action × AgentResult :=
  let baseMeta : PyValue := .obj [("timestamp", .str timestamp),
    ("agent_id", optStr agentId), ("agent_alias_id", optStr agentAliasId)]
  let rootId := 0
  let log1 : List Action :=
    [.createTrace sessionId "Bedrock Agent Invocation" inputText baseMeta,
     .openSpan rootId "orchestration" inputText]
  match invoke with
  | .failure msg =>
    (log1 ++ [.invokeAgent agentId agentAliasId sessionId true inputText,
      .closeSpan rootId (some msg),
      .traceUpdate (.obj [("error", .str msg)])], .error msg)
  | .stream events tailError =>
    let log2 := log1 ++ [.invokeAgent agentId agentAliasId sessionId true inputText]
    let log3 := (runLoop rootId 1 log2 events).2
    match tailError with
    | some msg =>
      (log3 ++ [.closeSpan rootId (some msg),
        .traceUpdate (.obj [("error", .str msg)])], .error msg)
    | none =>
      (log3 ++ [.closeSpan rootId none], .success sessionId)

/-- Does the action close the root orchestration span (handle id 0)? -/
def isRootClose : Action → Bool
  | .closeSpan 0 _ => true
  | _ => false

/-- Is the action a Generation lifecycle operation (open or close)? -/
def isGenAct : Action → Bool
  | .openGeneration .. => true
  | .closeGeneration .. => true
  | _ => false

/-- Is the action the close of a Generation? -/
def isCloseGenAct : Action → Bool
  | .closeGeneration .. => true
  | _ => false

/-- Is the action a `chunk_processing_error` point event? -/
def isChunkErrEvt : Action → Bool
  | .emitEvent _ name _ _ => name == "chunk_processing_error"
  | _ => false

/-- The orchestration-trace path of the event classifier, as optional
chaining: `record -> "trace" -> "trace" -> "orchestrationTrace"`, with
absence (or a non-mapping on the way) yielding `none`. -/
def pathLookup : PyValue → Option PyValue
  | .obj kvs =>
    match alookup kvs "trace" with
    | some (.obj t1) =>
      match alookup t1 "trace" with
      | some (.obj t2) => alookup t2 "orchestrationTrace"
      | _ => none
    | _ => none
  | _ => none

/-- Is the value a Python dictionary (a structured mapping)? -/
def isDict : PyValue → Bool
  | .obj _ => true
  | _ => false

/-- The direct JSON parse a textual or binary payload takes inside
`_safe_json_loads`: text is parsed, bytes are UTF-8 decoded and then
parsed; other values have no textual parse. -/
def textualParse : PyValue → Option PyValue
  | .str s => json_loads s
  | .bytes bs => (utf8Decode bs).bind (fun cs => json_loads (String.mk cs))
  | _ => none

/-- Sample raw stream record carrying only a `modelInvocationInput`
along the full orchestration-trace path. -/
def recInput : PyValue :=
  .obj [("trace", .obj [("trace", .obj [("orchestrationTrace",
    .obj [("modelInvocationInput", .obj [("text", .str "hi")])])])])]

/-- Sample raw stream record carrying only a `modelInvocationOutput`
(with usage metadata) along the full orchestration-trace path. -/
def recOutputUsage : PyValue :=
  .obj [("trace", .obj [("trace", .obj [("orchestrationTrace",
    .obj [("modelInvocationOutput", .obj [
      ("rawResponse", .obj [("content", .str "null")]),
      ("metadata", .obj [("usage", .obj [("inputTokens", .num 3),
        ("outputTokens", .num 4)])])])])])])]

/-- An action whose handle bookkeeping is compatible with counter value
`n`: it is not a `chunk_processing_error` event (those are emitted by
the controller only) and any span it closes has a handle allocated at
or after `n`. -/
def SafeAct (n : Nat) (a : Action) : Prop :=
  isChunkErrEvt a = false ∧ ∀ i e, a = Action.closeSpan i e → n ≤ i

theorem SafeAct.mono {n m : Nat} {a : Action} (h : SafeAct n a) (hmn : m ≤ n) :
    SafeAct m a :=
  ⟨h.1, fun i e hi => le_trans hmn (h.2 i e hi)⟩

theorem SafeAct.not_root_close {a : Action} (h : SafeAct 1 a) :
    isRootClose a = false := by
  cases a with
  | closeSpan i e =>
    have := h.2 i e rfl
    match i, this with
    | j + 1, _ => rfl
  | _ => rfl

theorem readP_fst {α : Type} {n m : Nat} {x : Except String α} {k : α → PRes}
    (hm : n ≤ m) (h : ∀ v, x = .ok v → n ≤ (k v).1) : n ≤ (readP m x k).1 := by
  cases x with
  | error e => simpa [readP] using hm
  | ok v => exact h v rfl

theorem readP_mem {α : Type} {m : Nat} {x : Except String α} {k : α → PRes}
    {a : Action} (ha : a ∈ (readP m x k).2.1) : ∃ v, x = .ok v ∧ a ∈ (k v).2.1 := by
  cases x with
  | error e => simp [readP] at ha
  | ok v => exact ⟨v, rfl, ha⟩

theorem readP_err {α : Type} {m : Nat} {x : Except String α} {k : α → PRes}
    {msg : String} (h : (readP m x k).2.2 = some msg) :
    (∃ v, x = .ok v ∧ (k v).2.2 = some msg) ∨ x = .error msg := by
  cases x with
  | error e => right; simp [readP] at h; simp [h]
  | ok v => exact Or.inl ⟨v, rfl, h⟩

theorem seqP_fst {n : Nat} {p : PRes} {k : Nat → PRes}
    (hp : n ≤ p.1) (hk : ∀ m, n ≤ m → n ≤ (k m).1) : n ≤ (seqP p k).1 := by
  unfold seqP
  cases p.2.2 with
  | none => exact hk p.1 hp
  | some e => exact hp

theorem seqP_mem {p : PRes} {k : Nat → PRes} {a : Action}
    (ha : a ∈ (seqP p k).2.1) : a ∈ p.2.1 ∨ a ∈ (k p.1).2.1 := by
  unfold seqP at ha
  split at ha
  · exact Or.inl ha
  · exact List.mem_append.mp (by simpa using ha)

theorem obs_mono (parent n : Nat) (v : PyValue) :
    n ≤ (_process_observation parent n v).1 := by
  unfold _process_observation
  apply readP_fst le_rfl; intro tid _
  apply readP_fst le_rfl; intro ty _
  apply readP_fst le_rfl; intro hasFinal _
  apply seqP_fst
  · split
    · apply readP_fst le_rfl; intro fr _
      apply readP_fst le_rfl; intro txt _
      exact le_rfl
    · exact le_rfl
  · intro m hm
    apply readP_fst hm; intro hasCollab _
    split
    · apply readP_fst hm; intro output _
      apply readP_fst hm; intro cname _
      apply readP_fst hm; intro coutput _
      apply readP_fst hm; intro cinput _
      apply readP_fst hm; intro carn _
      exact le_trans hm (Nat.le_succ m)
    · exact hm

theorem seqP_mem_fst {n : Nat} {p : PRes} {k : Nat → PRes} {a : Action}
    (hp : n ≤ p.1) (ha : a ∈ (seqP p k).2.1) :
    a ∈ p.2.1 ∨ ∃ m, n ≤ m ∧ a ∈ (k m).2.1 := by
  rcases seqP_mem ha with h | h
  · exact Or.inl h
  · exact Or.inr ⟨p.1, hp, h⟩

theorem obs_actions (parent n : Nat) (v : PyValue) :
    ∀ a ∈ (_process_observation parent n v).2.1,
      SafeAct n a ∧ isGenAct a = false := by
  intro a ha
  unfold _process_observation at ha
  obtain ⟨tid, _, ha⟩ := readP_mem ha
  obtain ⟨ty, _, ha⟩ := readP_mem ha
  obtain ⟨hasFinal, _, ha⟩ := readP_mem ha
  have hp : n ≤ (if hasFinal then
      readP n (pyGetItem v "finalResponse") fun fr =>
      readP n (dictGet fr "text" (.str "")) fun txt =>
      (n, [.emitEvent parent "final_response" txt
        (some (.obj [("trace_id", tid), ("type", ty)]))], none)
    else ((n, [], none) : PRes)).1 := by
    split
    · apply readP_fst le_rfl; intro fr _
      apply readP_fst le_rfl; intro txt _
      exact le_rfl
    · exact le_rfl
  rcases seqP_mem_fst hp ha with ha | ⟨m, hm, ha⟩
  · split at ha
    · obtain ⟨fr, _, ha⟩ := readP_mem ha
      obtain ⟨txt, _, ha⟩ := readP_mem ha
      simp only [List.mem_singleton] at ha
      subst ha
      exact ⟨⟨rfl, fun i e h => nomatch h⟩, rfl⟩
    · simp at ha
  · obtain ⟨hasCollab, _, ha⟩ := readP_mem ha
    split at ha
    · obtain ⟨output, _, ha⟩ := readP_mem ha
      obtain ⟨cname, _, ha⟩ := readP_mem ha
      obtain ⟨coutput, _, ha⟩ := readP_mem ha
      obtain ⟨cinput, _, ha⟩ := readP_mem ha
      obtain ⟨carn, _, ha⟩ := readP_mem ha
      simp only [List.mem_cons, List.mem_singleton, List.not_mem_nil, or_false] at ha
      rcases ha with ha | ha
      · subst ha; exact ⟨⟨rfl, fun i e h => nomatch h⟩, rfl⟩
      · subst ha
        refine ⟨⟨rfl, fun i e h => ?_⟩, rfl⟩
        injection h with h1 h2
        omega
    · simp at ha

theorem miiBlock_mono (parent n : Nat) (ot : PyValue) :
    n ≤ (miiBlock parent n ot).1 := by
  unfold miiBlock
  apply readP_fst le_rfl; intro hasInput _
  split
  · apply readP_fst le_rfl; intro input_data _
    apply readP_fst le_rfl; intro mp _
    apply readP_fst le_rfl; intro itext _
    apply readP_fst le_rfl; intro ity _
    apply readP_fst le_rfl; intro itid _
    apply seqP_fst (Nat.le_succ n)
    intro m hm
    apply readP_fst hm; intro hasOutput _
    split
    · apply readP_fst hm; intro output _
      apply readP_fst hm; intro rr _
      apply readP_fst hm; intro content _
      apply readP_fst hm; intro usage _
      apply readP_fst hm; intro outStr _
      exact hm
    · exact hm
  · exact le_rfl

theorem miiBlock_actions (parent n : Nat) (ot : PyValue) :
    ∀ a ∈ (miiBlock parent n ot).2.1, SafeAct n a := by
  intro a ha
  unfold miiBlock at ha
  obtain ⟨hasInput, _, ha⟩ := readP_mem ha
  split at ha
  · obtain ⟨input_data, _, ha⟩ := readP_mem ha
    obtain ⟨mp, _, ha⟩ := readP_mem ha
    obtain ⟨itext, _, ha⟩ := readP_mem ha
    obtain ⟨ity, _, ha⟩ := readP_mem ha
    obtain ⟨itid, _, ha⟩ := readP_mem ha
    rcases seqP_mem_fst (Nat.le_succ n) ha with ha | ⟨m, hm, ha⟩
    · simp only [List.mem_singleton] at ha
      subst ha
      exact ⟨rfl, fun i e h => nomatch h⟩
    · obtain ⟨hasOutput, _, ha⟩ := readP_mem ha
      split at ha
      · obtain ⟨output, _, ha⟩ := readP_mem ha
        obtain ⟨rr, _, ha⟩ := readP_mem ha
        obtain ⟨content, _, ha⟩ := readP_mem ha
        obtain ⟨usage, _, ha⟩ := readP_mem ha
        obtain ⟨outStr, _, ha⟩ := readP_mem ha
        simp only [List.mem_singleton] at ha
        subst ha
        exact ⟨rfl, fun i e h => nomatch h⟩
      · simp at ha
  · simp at ha

theorem rationaleBlock_mono (parent n : Nat) (ot : PyValue) :
    n ≤ (rationaleBlock parent n ot).1 := by
  unfold rationaleBlock
  apply readP_fst le_rfl; intro hasRat _
  split
  · apply readP_fst le_rfl; intro rat _
    apply readP_fst le_rfl; intro rtext _
    apply readP_fst le_rfl; intro rtid _
    exact le_rfl
  · exact le_rfl

theorem rationaleBlock_actions (parent n : Nat) (ot : PyValue) :
    ∀ a ∈ (rationaleBlock parent n ot).2.1,
      SafeAct n a ∧ isGenAct a = false := by
  intro a ha
  unfold rationaleBlock at ha
  obtain ⟨hasRat, _, ha⟩ := readP_mem ha
  split at ha
  · obtain ⟨rat, _, ha⟩ := readP_mem ha
    obtain ⟨rtext, _, ha⟩ := readP_mem ha
    obtain ⟨rtid, _, ha⟩ := readP_mem ha
    simp only [List.mem_singleton] at ha
    subst ha
    exact ⟨⟨rfl, fun i e h => nomatch h⟩, rfl⟩
  · simp at ha

theorem obsBlock_mono (parent n : Nat) (ot : PyValue) :
    n ≤ (obsBlock parent n ot).1 := by
  unfold obsBlock
  apply readP_fst le_rfl; intro hasObs _
  split
  · apply readP_fst le_rfl; intro obs _
    exact obs_mono parent n obs
  · exact le_rfl

theorem obsBlock_actions (parent n : Nat) (ot : PyValue) :
    ∀ a ∈ (obsBlock parent n ot).2.1,
      SafeAct n a ∧ isGenAct a = false := by
  intro a ha
  unfold obsBlock at ha
  obtain ⟨hasObs, _, ha⟩ := readP_mem ha
  split at ha
  · obtain ⟨obs, _, ha⟩ := readP_mem ha
    exact obs_actions parent n obs a ha
  · simp at ha

theorem orch_mono (parent n : Nat) (ot : PyValue) :
    n ≤ (_process_orchestration_trace parent n ot).1 := by
  unfold _process_orchestration_trace
  apply seqP_fst (miiBlock_mono parent n ot)
  intro m hm
  apply seqP_fst (le_trans hm (rationaleBlock_mono parent m ot))
  intro m2 hm2
  exact le_trans hm2 (obsBlock_mono parent m2 ot)

theorem orch_actions (parent n : Nat) (ot : PyValue) :
    ∀ a ∈ (_process_orchestration_trace parent n ot).2.1, SafeAct n a := by
  intro a ha
  unfold _process_orchestration_trace at ha
  rcases seqP_mem_fst (miiBlock_mono parent n ot) ha with ha | ⟨m, hm, ha⟩
  · exact miiBlock_actions parent n ot a ha
  · rcases seqP_mem_fst (rationaleBlock_mono parent m ot) ha with ha | ⟨m2, hm2, ha⟩
    · exact ((rationaleBlock_actions parent m ot a ha).1).mono hm
    · exact ((obsBlock_actions parent m2 ot a ha).1).mono (le_trans hm hm2)

theorem chunk_mono (parent n : Nat) (chunk : PyValue) :
    n ≤ (_process_trace_chunk parent n chunk).1 := by
  unfold _process_trace_chunk
  apply readP_fst le_rfl; intro trace_data _
  apply readP_fst le_rfl; intro inner _
  apply readP_fst le_rfl; intro hasOt _
  split
  · apply readP_fst le_rfl; intro tt _
    apply readP_fst le_rfl; intro ot _
    exact orch_mono parent n ot
  · exact le_rfl

theorem chunk_actions (parent n : Nat) (chunk : PyValue) :
    ∀ a ∈ (_process_trace_chunk parent n chunk).2.1, SafeAct n a := by
  intro a ha
  unfold _process_trace_chunk at ha
  obtain ⟨trace_data, _, ha⟩ := readP_mem ha
  obtain ⟨inner, _, ha⟩ := readP_mem ha
  obtain ⟨hasOt, _, ha⟩ := readP_mem ha
  split at ha
  · obtain ⟨tt, _, ha⟩ := readP_mem ha
    obtain ⟨ot, _, ha⟩ := readP_mem ha
    exact orch_actions parent n ot a ha
  · simp at ha

theorem runLoop_fst_ge (events : List PyValue) :
    ∀ n log, n ≤ (runLoop 0 n log events).1 := by
  induction events with
  | nil => intro n log; exact le_rfl
  | cons e rest ih =>
    intro n log
    simp only [runLoop]
    exact le_trans (chunk_mono 0 n e) (ih _ _)

theorem runLoop_prefix_safe (events : List PyValue) :
    ∀ n log, 1 ≤ n →
      ∃ tail, (runLoop 0 n log events).2 = log ++ tail ∧
        ∀ a ∈ tail, isRootClose a = false := by
  induction events with
  | nil =>
    intro n log _
    exact ⟨[], by simp [runLoop], by simp⟩
  | cons e rest ih =>
    intro n log hn
    have h1 : 1 ≤ (_process_trace_chunk 0 n e).1 := le_trans hn (chunk_mono 0 n e)
    rcases herr : (_process_trace_chunk 0 n e).2.2 with _ | msg
    · obtain ⟨tail2, heq, htail⟩ :=
        ih (_process_trace_chunk 0 n e).1 (log ++ (_process_trace_chunk 0 n e).2.1) h1
      refine ⟨(_process_trace_chunk 0 n e).2.1 ++ tail2, ?_, ?_⟩
      · simp only [runLoop, herr]
        rw [heq, List.append_assoc]
      · intro a ha
        rcases List.mem_append.mp ha with h | h
        · exact (((chunk_actions 0 n e a h).mono hn).not_root_close)
        · exact htail a h
    · obtain ⟨tail2, heq, htail⟩ :=
        ih (_process_trace_chunk 0 n e).1
          ((log ++ (_process_trace_chunk 0 n e).2.1) ++
            [.emitEvent 0 "chunk_processing_error" (.str msg) none]) h1
      refine ⟨((_process_trace_chunk 0 n e).2.1 ++
        [.emitEvent 0 "chunk_processing_error" (.str msg) none]) ++ tail2, ?_, ?_⟩
      · simp only [runLoop, herr]
        rw [heq]
        simp [List.append_assoc]
      · intro a ha
        rcases List.mem_append.mp ha with h | h
        · rcases List.mem_append.mp h with h2 | h2
          · exact (((chunk_actions 0 n e a h2).mono hn).not_root_close)
          · simp only [List.mem_singleton] at h2; subst h2; rfl
        · exact htail a h

theorem runLoop_filter_none (events : List PyValue)
    (hclean : ∀ e ∈ events, ∀ m, (_process_trace_chunk 0 m e).2.2 = none) :
    ∀ n log, ((runLoop 0 n log events).2).filter isChunkErrEvt =
      log.filter isChunkErrEvt := by
  induction events with
  | nil => intro n log; simp [runLoop]
  | cons e rest ih =>
    intro n log
    have herr := hclean e (List.mem_cons_self e rest) n
    simp only [runLoop, herr]
    rw [ih (fun x hx => hclean x (List.mem_cons_of_mem e hx))]
    rw [List.filter_append]
    have : ((_process_trace_chunk 0 n e).2.1).filter isChunkErrEvt = [] := by
      rw [List.filter_eq_nil_iff]
      intro a ha
      simp [(chunk_actions 0 n e a ha).1]
    rw [this, List.append_nil]

theorem tailBlocks_no_gen (parent m : Nat) (ot : PyValue) :
    ∀ a ∈ (seqP (rationaleBlock parent m ot) fun n4 => obsBlock parent n4 ot).2.1,
      isGenAct a = false := by
  intro a ha
  rcases seqP_mem ha with h | h
  · exact (rationaleBlock_actions parent m ot a h).2
  · exact (obsBlock_actions parent _ ot a h).2

theorem seqP_acts_none {p : PRes} {k : Nat → PRes} (h : p.2.2 = none) :
    (seqP p k).2.1 = p.2.1 ++ (k p.1).2.1 := by
  unfold seqP; rw [h]

theorem seqP_acts_some {p : PRes} {k : Nat → PRes} {e : String}
    (h : p.2.2 = some e) : (seqP p k).2.1 = p.2.1 := by
  unfold seqP; rw [h]

theorem orch_filter_genacts (parent n : Nat) (ot : PyValue) :
    ((_process_orchestration_trace parent n ot).2.1).filter isGenAct =
      ((miiBlock parent n ot).2.1).filter isGenAct := by
  unfold _process_orchestration_trace
  rcases hmii : (miiBlock parent n ot).2.2 with _ | e
  · have htail : ((seqP (rationaleBlock parent (miiBlock parent n ot).1 ot)
        fun n4 => obsBlock parent n4 ot).2.1).filter isGenAct = [] := by
      rw [List.filter_eq_nil_iff]
      intro a ha
      simp [tailBlocks_no_gen parent _ ot a ha]
    rw [seqP_acts_none hmii, List.filter_append, htail, List.append_nil]
  · rw [seqP_acts_some hmii]

theorem chunk_to_orch (parent n : Nat) {kvs t1 t2 : List (String × PyValue)}
    {v : PyValue}
    (h1 : alookup kvs "trace" = some (.obj t1))
    (h2 : alookup t1 "trace" = some (.obj t2))
    (h3 : alookup t2 "orchestrationTrace" = some v) :
    _process_trace_chunk parent n (.obj kvs) =
      _process_orchestration_trace parent n v := by
  simp [_process_trace_chunk, readP, dictGet, getD, h1, h2, pyContainsE, h3,
    pyGetItem]

theorem usageOf_no_meta {oo : List (String × PyValue)}
    (hmeta : alookup oo "metadata" = none) :
    usageOf (.obj oo) = .ok (.obj []) := by
  simp [usageOf, pyContainsE, hmeta]

theorem usageOf_with_usage {oo mm uu : List (String × PyValue)}
    (hmeta : alookup oo "metadata" = some (.obj mm))
    (husage : alookup mm "usage" = some (.obj uu)) :
    usageOf (.obj oo) = .ok (.obj [("input", getD uu "inputTokens" (.num 0)),
      ("output", getD uu "outputTokens" (.num 0)), ("unit", .str "TOKENS")]) := by
  simp [usageOf, pyContainsE, hmeta, pyGetItem, husage, dictGet]

theorem miiBlock_pair (parent n : Nat) {ot ii oo rr : List (String × PyValue)}
    {c out : String} {um : PyValue}
    (hin : alookup ot "modelInvocationInput" = some (.obj ii))
    (hout : alookup ot "modelInvocationOutput" = some (.obj oo))
    (hrr : alookup oo "rawResponse" = some (.obj rr))
    (hc : alookup rr "content" = some (.str c))
    (hu : usageOf (.obj oo) = .ok um)
    (hdump : jsonDumps (_safe_json_loads (.str c)) = .ok out) :
    miiBlock parent n (.obj ot) = (n + 1,
      [.openGeneration n parent "model_invocation" "bedrock-agent"
        (getD ii "inferenceConfiguration" (.obj [])) (getD ii "text" (.str ""))
        (.obj [("type", getD ii "type" (.str "")),
          ("trace_id", getD ii "traceId" (.str ""))]),
       .closeGeneration n (.str out) um], none) := by
  simp [miiBlock, readP, pyContainsE, hin, hout, pyGetItem, dictGet, seqP,
    getD, hrr, hc, hu, hdump]

theorem miiBlock_input_only (parent n : Nat) {ot ii : List (String × PyValue)}
    (hin : alookup ot "modelInvocationInput" = some (.obj ii))
    (hout : alookup ot "modelInvocationOutput" = none) :
    miiBlock parent n (.obj ot) = (n + 1,
      [.openGeneration n parent "model_invocation" "bedrock-agent"
        (getD ii "inferenceConfiguration" (.obj [])) (getD ii "text" (.str ""))
        (.obj [("type", getD ii "type" (.str "")),
          ("trace_id", getD ii "traceId" (.str ""))])], none) := by
  simp [miiBlock, readP, pyContainsE, hin, hout, pyGetItem, dictGet, seqP, getD]

theorem runLoop_append_eq (xs ys : List PyValue) :
    ∀ n log, runLoop 0 n log (xs ++ ys) =
      runLoop 0 (runLoop 0 n log xs).1 (runLoop 0 n log xs).2 ys := by
  induction xs with
  | nil => intro n log; rfl
  | cons e rest ih =>
    intro n log
    simp only [List.cons_append, runLoop]
    exact ih _ _

theorem isDict_obj {v : PyValue} (h : isDict v = true) : ∃ l, v = .obj l := by
  cases v <;> first | exact ⟨_, rfl⟩ | simp [isDict] at h

/-- Claim C6, counterexample: on the textual payload `"3"` (valid JSON
for the number 3), `_safe_json_loads` returns the parsed integer, which
is not a structured mapping value — refuting the claim that it always
returns a mapping. -/
theorem C6_counterexample :
    _safe_json_loads (.str "3") = .num 3 ∧
      isDict (_safe_json_loads (.str "3")) = false :=
  ⟨rfl, rfl⟩

/-- Claim C6 (amended): for every input of any type, `_safe_json_loads`
never raises (it is total in this embedding, every fallible operation
being handled) and returns either a structured mapping or, for a
textual/binary payload that parses as JSON, the parsed JSON value
itself — which need not be a mapping. -/
theorem C6_normalizer_total (d : PyValue) :
    isDict (_safe_json_loads d) = true ∨
      textualParse d = some (_safe_json_loads d) := by
  cases d with
  | str s =>
    rcases h : json_loads s with _ | v
    · left; simp [_safe_json_loads, h, isDict]
    · right; simp [_safe_json_loads, h, textualParse]
  | bytes bs =>
    rcases h : (utf8Decode bs).bind (fun cs => json_loads (String.mk cs)) with _ | v
    · left; simp [_safe_json_loads, h, isDict]
    · right; simp [_safe_json_loads, h, textualParse]
  | obj kvs => left; rfl
  | null => left; rfl
  | bool b => left; rfl
  | num n => left; rfl
  | arr xs => left; rfl

/-- Claim C7: for every textual payload P, `_safe_json_loads` returns
the JSON parse of P when P parses, else the content wrapper around P;
for every binary payload that is not valid UTF-8 it returns the content
wrapper around the stringified bytes.  No exception escapes: the
embedding is a total function, every fallible operation (parse, decode)
being handled inside it. -/
theorem C7_normalizer_payloads :
    (∀ s : String,
      (∃ v, json_loads s = some v ∧ _safe_json_loads (.str s) = v) ∨
        (json_loads s = none ∧
          _safe_json_loads (.str s) = .obj [("content", .str s)])) ∧
    (∀ bs : List Nat, utf8Decode bs = none →
      _safe_json_loads (.bytes bs) =
        .obj [("content", .str (pyStr (.bytes bs)))]) := by
  constructor
  · intro s
    rcases h : json_loads s with _ | v
    · right; exact ⟨rfl, by simp [_safe_json_loads, h]⟩
    · left; exact ⟨v, rfl, by simp [_safe_json_loads, h]⟩
  · intro bs h
    simp [_safe_json_loads, h]

/-- Claim C7, witness: the invalid UTF-8 payload `b"\xff"` is wrapped
as a content dict. -/
theorem C7_normalizer_payloads_witness :
    utf8Decode [255] = none ∧
      _safe_json_loads (.bytes [255]) =
        .obj [("content", .str (pyStr (.bytes [255])))] :=
  ⟨rfl, C7_normalizer_payloads.2 [255] rfl⟩

/-- Claim C9, counterexample: the record `\x7b"trace": "x"\x7d` lacks
the orchestration-trace path, yet processing it raises a (modelled)
`AttributeError` from `trace_data.get("trace", \x7b\x7d)` on the
string value — refuting the claim that any record lacking the path is
processed without raising and without effect (here the exception is
later caught by the controller as a per-event error). -/
theorem C9_counterexample :
    pathLookup (.obj [("trace", .str "x")]) = none ∧
      (_process_trace_chunk 0 1 (.obj [("trace", .str "x")])).2.2 =
        some "str object has no attribute get" :=
  ⟨rfl, rfl⟩

/-- Claim C9 (amended): for every raw record lacking the
orchestration-trace path whose traversed values (the record's `trace`
value and that value's `trace` value, when present) are mappings,
processing yields no sub-events, performs no sink operation, raises no
exception, and leaves the handle counter unchanged; a non-mapping on
the traversed path may instead raise, which the controller catches as
a per-event error. -/
theorem C9_no_path_no_op (parent n : Nat) (kvs : List (String × PyValue))
    (h1 : ∀ v, alookup kvs "trace" = some v → isDict v = true)
    (h2 : ∀ t1 v, alookup kvs "trace" = some (.obj t1) →
      alookup t1 "trace" = some v → isDict v = true)
    (h3 : pathLookup (.obj kvs) = none) :
    _process_trace_chunk parent n (.obj kvs) = (n, [], none) := by
  rcases ha : alookup kvs "trace" with _ | v
  · simp [_process_trace_chunk, readP, dictGet, getD, ha, pyContainsE, alookup]
  · obtain ⟨t1, rfl⟩ := isDict_obj (h1 v ha)
    rcases hb : alookup t1 "trace" with _ | w
    · simp [_process_trace_chunk, readP, dictGet, getD, ha, hb, pyContainsE,
        alookup]
    · obtain ⟨t2, rfl⟩ := isDict_obj (h2 t1 w ha hb)
      have hc : alookup t2 "orchestrationTrace" = none := by
        have h4 := h3
        simp only [pathLookup, ha, hb] at h4
        exact h4
      simp [_process_trace_chunk, readP, dictGet, getD, ha, hb, pyContainsE, hc]

/-- Claim C9, witness: a non-trace record (a streamed answer chunk) is
ignored with no effect. -/
theorem C9_no_path_no_op_witness :
    _process_trace_chunk 0 1 (.obj [("chunk", .obj [("bytes",
      .bytes [104, 105])])]) = (1, [], none) :=
  C9_no_path_no_op 0 1 _
    (by intro v hv; simp [alookup] at hv)
    (by intro t1 v hv; simp [alookup] at hv)
    rfl

/-- Claim C1, counterexample: a record carrying only
`modelInvocationInput` opens Generation 1 and leaves it open; the next
record, carrying a `modelInvocationOutput` with usage metadata along
the full orchestration-trace path, produces no sink operation at all —
in particular the open Generation is not closed, refuting the claim
for a `modelInvocationOutput` arriving in a later raw record than the
`modelInvocationInput` that opened the Generation. -/
theorem C1_counterexample :
    _process_trace_chunk 0 1 recInput = (2,
      [.openGeneration 1 0 "model_invocation" "bedrock-agent" (.obj [])
        (.str "hi") (.obj [("type", .str ""), ("trace_id", .str "")])], none) ∧
    _process_trace_chunk 0 2 recOutputUsage = (2, [], none) :=
  ⟨rfl, rfl⟩

/-- Claim C1 (amended): a `modelInvocationOutput` is processed only
when it occurs in the same raw record as a `modelInvocationInput`; in
that case the Generation opened by that record is closed with the
normalized raw response and usage `(input, output, TOKENS)` (token
counts defaulting to 0) when usage metadata is present, else with an
empty usage dict.  An output arriving in a later record than the input
is ignored and the Generation stays open (see the counterexample). -/
theorem C1_output_same_record_only (parent n : Nat)
    (kvs t1 t2 ot ii oo rr : List (String × PyValue)) (c out : String)
    (h1 : alookup kvs "trace" = some (.obj t1))
    (h2 : alookup t1 "trace" = some (.obj t2))
    (h3 : alookup t2 "orchestrationTrace" = some (.obj ot))
    (hin : alookup ot "modelInvocationInput" = some (.obj ii))
    (hout : alookup ot "modelInvocationOutput" = some (.obj oo))
    (hrr : alookup oo "rawResponse" = some (.obj rr))
    (hc : alookup rr "content" = some (.str c))
    (hdump : jsonDumps (_safe_json_loads (.str c)) = .ok out) :
    (alookup oo "metadata" = none →
      ((_process_trace_chunk parent n (.obj kvs)).2.1).filter isGenAct =
        [.openGeneration n parent "model_invocation" "bedrock-agent"
          (getD ii "inferenceConfiguration" (.obj [])) (getD ii "text" (.str ""))
          (.obj [("type", getD ii "type" (.str "")),
            ("trace_id", getD ii "traceId" (.str ""))]),
         .closeGeneration n (.str out) (.obj [])]) ∧
    (∀ mm uu, alookup oo "metadata" = some (.obj mm) →
      alookup mm "usage" = some (.obj uu) →
      ((_process_trace_chunk parent n (.obj kvs)).2.1).filter isGenAct =
        [.openGeneration n parent "model_invocation" "bedrock-agent"
          (getD ii "inferenceConfiguration" (.obj [])) (getD ii "text" (.str ""))
          (.obj [("type", getD ii "type" (.str "")),
            ("trace_id", getD ii "traceId" (.str ""))]),
         .closeGeneration n (.str out)
          (.obj [("input", getD uu "inputTokens" (.num 0)),
            ("output", getD uu "outputTokens" (.num 0)),
            ("unit", .str "TOKENS")])]) := by
  rw [chunk_to_orch parent n h1 h2 h3]
  constructor
  · intro hmeta
    rw [orch_filter_genacts,
      miiBlock_pair parent n hin hout hrr hc (usageOf_no_meta hmeta) hdump]
    rfl
  · intro mm uu hmeta husage
    rw [orch_filter_genacts,
      miiBlock_pair parent n hin hout hrr hc
        (usageOf_with_usage hmeta husage) hdump]
    rfl

/-- Claim C1, witness: a concrete same-record input/output pair with
usage metadata yields an open followed by a close carrying the usage. -/
theorem C1_output_same_record_only_witness :
    ((_process_trace_chunk 0 1 (.obj [("trace", .obj [("trace", .obj [
        ("orchestrationTrace", .obj [
          ("modelInvocationInput", .obj [("text", .str "q")]),
          ("modelInvocationOutput", .obj [
            ("rawResponse", .obj [("content", .str "null")]),
            ("metadata", .obj [("usage", .obj [("inputTokens", .num 3),
              ("outputTokens", .num 4)])])])])])])])).2.1).filter isGenAct =
      [.openGeneration 1 0 "model_invocation" "bedrock-agent" (.obj [])
        (.str "q") (.obj [("type", .str ""), ("trace_id", .str "")]),
       .closeGeneration 1 (.str "null")
        (.obj [("input", .num 3), ("output", .num 4),
          ("unit", .str "TOKENS")])] :=
  (C1_output_same_record_only 0 1
    [("trace", .obj [("trace", .obj [("orchestrationTrace", .obj [
      ("modelInvocationInput", .obj [("text", .str "q")]),
      ("modelInvocationOutput", .obj [
        ("rawResponse", .obj [("content", .str "null")]),
        ("metadata", .obj [("usage", .obj [("inputTokens", .num 3),
          ("outputTokens", .num 4)])])])])])])]
    [("trace", .obj [("orchestrationTrace", .obj [
      ("modelInvocationInput", .obj [("text", .str "q")]),
      ("modelInvocationOutput", .obj [
        ("rawResponse", .obj [("content", .str "null")]),
        ("metadata", .obj [("usage", .obj [("inputTokens", .num 3),
          ("outputTokens", .num 4)])])])])])]
    [("orchestrationTrace", .obj [
      ("modelInvocationInput", .obj [("text", .str "q")]),
      ("modelInvocationOutput", .obj [
        ("rawResponse", .obj [("content", .str "null")]),
        ("metadata", .obj [("usage", .obj [("inputTokens", .num 3),
          ("outputTokens", .num 4)])])])])]
    [("modelInvocationInput", .obj [("text", .str "q")]),
     ("modelInvocationOutput", .obj [
       ("rawResponse", .obj [("content", .str "null")]),
       ("metadata", .obj [("usage", .obj [("inputTokens", .num 3),
         ("outputTokens", .num 4)])])])]
    [("text", .str "q")]
    [("rawResponse", .obj [("content", .str "null")]),
     ("metadata", .obj [("usage", .obj [("inputTokens", .num 3),
       ("outputTokens", .num 4)])])]
    [("content", .str "null")]
    "null" "null" rfl rfl rfl rfl rfl rfl rfl rfl).2
    [("usage", .obj [("inputTokens", .num 3), ("outputTokens", .num 4)])]
    [("inputTokens", .num 3), ("outputTokens", .num 4)] rfl rfl

/-- Claim C5, counterexample: two successive records each carrying only
a `modelInvocationInput`: the second record simply opens a new
Generation (handle 2) and emits no `closeGeneration` at all — the stale
open Generation (handle 1) is not closed with an empty output, refuting
the claim. -/
theorem C5_counterexample :
    _process_trace_chunk 0 1 recInput = (2,
      [.openGeneration 1 0 "model_invocation" "bedrock-agent" (.obj [])
        (.str "hi") (.obj [("type", .str ""), ("trace_id", .str "")])], none) ∧
    _process_trace_chunk 0 (_process_trace_chunk 0 1 recInput).1 recInput = (3,
      [.openGeneration 2 0 "model_invocation" "bedrock-agent" (.obj [])
        (.str "hi") (.obj [("type", .str ""), ("trace_id", .str "")])], none) :=
  ⟨rfl, rfl⟩

/-- Claim C5 (amended): the reducer keeps no cross-record Generation
state: a record carrying a `modelInvocationInput` (and no output)
always just opens a fresh Generation — its only Generation operations
are that single open, never a close — so a previously opened Generation
is left unclosed rather than force-closed with an empty output. -/
theorem C5_no_stale_close (parent n : Nat) (ot ii : List (String × PyValue))
    (hin : alookup ot "modelInvocationInput" = some (.obj ii))
    (hout : alookup ot "modelInvocationOutput" = none) :
    ((_process_orchestration_trace parent n (.obj ot)).2.1).filter isGenAct =
      [.openGeneration n parent "model_invocation" "bedrock-agent"
        (getD ii "inferenceConfiguration" (.obj [])) (getD ii "text" (.str ""))
        (.obj [("type", getD ii "type" (.str "")),
          ("trace_id", getD ii "traceId" (.str ""))])] := by
  rw [orch_filter_genacts, miiBlock_input_only parent n hin hout]
  rfl

/-- Claim C5, witness: an input-only orchestration trace processed at
counter 5 emits exactly one open and no close. -/
theorem C5_no_stale_close_witness :
    ((_process_orchestration_trace 0 5
        (.obj [("modelInvocationInput", .obj [("text", .str "hi")])])).2.1).filter
      isGenAct =
      [.openGeneration 5 0 "model_invocation" "bedrock-agent" (.obj [])
        (.str "hi") (.obj [("type", .str ""), ("trace_id", .str "")])] :=
  C5_no_stale_close 0 5
    [("modelInvocationInput", .obj [("text", .str "hi")])]
    [("text", .str "hi")] rfl rfl

/-- Claim C8: for every orchestration-trace record containing both a
`modelInvocationInput` and a `modelInvocationOutput` with usage
metadata `(inputTokens 10, outputTokens 5)` — stated via key lookups,
hence independent of the key order in the record — the reducer opens
exactly one Generation and then closes it (open before close), the
close carrying usage `(input 10, output 5, unit TOKENS)`. -/
theorem C8_pair_record_usage (parent n : Nat)
    (ot ii oo rr mm uu : List (String × PyValue)) (c out : String)
    (hin : alookup ot "modelInvocationInput" = some (.obj ii))
    (hout : alookup ot "modelInvocationOutput" = some (.obj oo))
    (hrr : alookup oo "rawResponse" = some (.obj rr))
    (hc : alookup rr "content" = some (.str c))
    (hmeta : alookup oo "metadata" = some (.obj mm))
    (husage : alookup mm "usage" = some (.obj uu))
    (hit : alookup uu "inputTokens" = some (.num 10))
    (hto : alookup uu "outputTokens" = some (.num 5))
    (hdump : jsonDumps (_safe_json_loads (.str c)) = .ok out) :
    ((_process_orchestration_trace parent n (.obj ot)).2.1).filter isGenAct =
      [.openGeneration n parent "model_invocation" "bedrock-agent"
        (getD ii "inferenceConfiguration" (.obj [])) (getD ii "text" (.str ""))
        (.obj [("type", getD ii "type" (.str "")),
          ("trace_id", getD ii "traceId" (.str ""))]),
       .closeGeneration n (.str out)
        (.obj [("input", .num 10), ("output", .num 5),
          ("unit", .str "TOKENS")])] := by
  have hu := usageOf_with_usage hmeta husage
  have hgi : getD uu "inputTokens" (.num 0) = .num 10 := by simp [getD, hit]
  have hgo : getD uu "outputTokens" (.num 0) = .num 5 := by simp [getD, hto]
  rw [hgi, hgo] at hu
  rw [orch_filter_genacts, miiBlock_pair parent n hin hout hrr hc hu hdump]
  rfl

/-- Claim C8, witness: a concrete record listing the output key before
the input key still yields open-then-close with usage 10/5. -/
theorem C8_pair_record_usage_witness :
    ((_process_orchestration_trace 0 1 (.obj [
        ("modelInvocationOutput", .obj [
          ("rawResponse", .obj [("content", .str "[1]")]),
          ("metadata", .obj [("usage", .obj [("inputTokens", .num 10),
            ("outputTokens", .num 5)])])]),
        ("modelInvocationInput", .obj [("text", .str "q")])])).2.1).filter
      isGenAct =
      [.openGeneration 1 0 "model_invocation" "bedrock-agent" (.obj [])
        (.str "q") (.obj [("type", .str ""), ("trace_id", .str "")]),
       .closeGeneration 1 (.str "[1]")
        (.obj [("input", .num 10), ("output", .num 5),
          ("unit", .str "TOKENS")])] :=
  C8_pair_record_usage 0 1
    [("modelInvocationOutput", .obj [
       ("rawResponse", .obj [("content", .str "[1]")]),
       ("metadata", .obj [("usage", .obj [("inputTokens", .num 10),
         ("outputTokens", .num 5)])])]),
     ("modelInvocationInput", .obj [("text", .str "q")])]
    [("text", .str "q")]
    [("rawResponse", .obj [("content", .str "[1]")]),
     ("metadata", .obj [("usage", .obj [("inputTokens", .num 10),
       ("outputTokens", .num 5)])])]
    [("content", .str "[1]")]
    [("usage", .obj [("inputTokens", .num 10), ("outputTokens", .num 5)])]
    [("inputTokens", .num 10), ("outputTokens", .num 5)]
    "[1]" "[1]" rfl rfl rfl rfl rfl rfl rfl rfl rfl

/-- Claim C3: on every execution of `trace_agent_interaction` — normal
stream exhaustion or any fatal-error path — the root orchestration span
(handle 0, the only span opened by the controller itself) is closed
exactly once; it is never left open and never closed twice. -/
theorem C3_root_closed_once (agentId agentAliasId : Option String)
    (timestamp sessionId inputText : String) (invoke : AgentResponse) :
    (((trace_agent_interaction agentId agentAliasId timestamp sessionId
      inputText invoke).1).filter isRootClose).length = 1 := by
  cases invoke with
  | failure msg => rfl
  | stream events tailError =>
    obtain ⟨tail, heq, htail⟩ := runLoop_prefix_safe events 1
      ([.createTrace sessionId "Bedrock Agent Invocation" inputText
          (.obj [("timestamp", .str timestamp), ("agent_id", optStr agentId),
            ("agent_alias_id", optStr agentAliasId)]),
        .openSpan 0 "orchestration" inputText] ++
        [.invokeAgent agentId agentAliasId sessionId true inputText]) le_rfl
    have htf : tail.filter isRootClose = [] := by
      rw [List.filter_eq_nil_iff]
      intro a ha
      simp [htail a ha]
    cases tailError with
    | none =>
      simp only [trace_agent_interaction]
      rw [heq]
      simp [List.filter_append, htf, isRootClose]
    | some msg =>
      simp only [trace_agent_interaction]
      rw [heq]
      simp [List.filter_append, htf, isRootClose]

/-- Claim C2: whenever the agent-backend call itself raises, or stream
iteration raises outside per-event handling, `trace_agent_interaction`
returns the error result with that message, and its sink-call log ends
with closing the root span with that error followed by recording the
error metadata on the Trace, no earlier action having closed the root
span (so it is closed exactly once, with the error).  That no exception
escapes `trace_agent_interaction` itself is modelled by the embedding
being a total function returning a result on every input. -/
theorem C2_fatal_error (agentId agentAliasId : Option String)
    (timestamp sessionId inputText msg : String) (invoke : AgentResponse)
    (h : invoke = .failure msg ∨ ∃ events, invoke = .stream events (some msg)) :
    (trace_agent_interaction agentId agentAliasId timestamp sessionId
      inputText invoke).2 = .error msg ∧
    ∃ pre, (trace_agent_interaction agentId agentAliasId timestamp sessionId
        inputText invoke).1 =
      pre ++ [.closeSpan 0 (some msg),
        .traceUpdate (.obj [("error", .str msg)])] ∧
      ∀ a ∈ pre, isRootClose a = false := by
  rcases h with rfl | ⟨events, rfl⟩
  · refine ⟨rfl, [.createTrace sessionId "Bedrock Agent Invocation" inputText
      (.obj [("timestamp", .str timestamp), ("agent_id", optStr agentId),
        ("agent_alias_id", optStr agentAliasId)]),
      .openSpan 0 "orchestration" inputText,
      .invokeAgent agentId agentAliasId sessionId true inputText], rfl, ?_⟩
    intro a ha
    simp only [List.mem_cons, List.not_mem_nil, or_false] at ha
    rcases ha with rfl | rfl | rfl <;> rfl
  · refine ⟨rfl, (runLoop 0 1
      ([.createTrace sessionId "Bedrock Agent Invocation" inputText
          (.obj [("timestamp", .str timestamp), ("agent_id", optStr agentId),
            ("agent_alias_id", optStr agentAliasId)]),
        .openSpan 0 "orchestration" inputText] ++
        [.invokeAgent agentId agentAliasId sessionId true inputText])
      events).2, ?_, ?_⟩
    · rfl
    intro a ha
    obtain ⟨tail, heq, htail⟩ := runLoop_prefix_safe events 1 _ le_rfl
    rw [heq] at ha
    rcases List.mem_append.mp ha with h | h
    · simp only [List.append_assoc, List.cons_append, List.nil_append,
        List.mem_cons, List.not_mem_nil, or_false] at h
      rcases h with rfl | rfl | rfl <;> rfl
    · exact htail a h

/-- Claim C2, witness: a failing agent call with message `boom`. -/
theorem C2_fatal_error_witness :
    (trace_agent_interaction none none "ts" "sid" "hello"
      (.failure "boom")).2 = .error "boom" ∧
    ∃ pre, (trace_agent_interaction none none "ts" "sid" "hello"
        (.failure "boom")).1 =
      pre ++ [.closeSpan 0 (some "boom"),
        .traceUpdate (.obj [("error", .str "boom")])] ∧
      ∀ a ∈ pre, isRootClose a = false :=
  C2_fatal_error none none "ts" "sid" "hello" "boom" _ (Or.inl rfl)

/-- Claim C10: whenever `trace_agent_interaction` returns a success
result, the returned trace id is exactly the per-call session identity,
and that same identity is both the id under which the Trace was created
at the sink and the session id passed to the agent-backend call. -/
theorem C10_session_identity (agentId agentAliasId : Option String)
    (timestamp sessionId inputText tid : String) (invoke : AgentResponse)
    (h : (trace_agent_interaction agentId agentAliasId timestamp sessionId
      inputText invoke).2 = .success tid) :
    tid = sessionId ∧
    Action.createTrace sessionId "Bedrock Agent Invocation" inputText
        (.obj [("timestamp", .str timestamp), ("agent_id", optStr agentId),
          ("agent_alias_id", optStr agentAliasId)]) ∈
      (trace_agent_interaction agentId agentAliasId timestamp sessionId
        inputText invoke).1 ∧
    Action.invokeAgent agentId agentAliasId sessionId true inputText ∈
      (trace_agent_interaction agentId agentAliasId timestamp sessionId
        inputText invoke).1 := by
  cases invoke with
  | failure msg => exact absurd h (by simp [trace_agent_interaction])
  | stream events tailError =>
    cases tailError with
    | some m => exact absurd h (by simp [trace_agent_interaction])
    | none =>
      have htid : tid = sessionId := by
        simp only [trace_agent_interaction] at h
        exact (AgentResult.success.injEq _ _ ▸ h).symm
      obtain ⟨tail, heq, _⟩ := runLoop_prefix_safe events 1
        ([.createTrace sessionId "Bedrock Agent Invocation" inputText
            (.obj [("timestamp", .str timestamp), ("agent_id", optStr agentId),
              ("agent_alias_id", optStr agentAliasId)]),
          .openSpan 0 "orchestration" inputText] ++
          [.invokeAgent agentId agentAliasId sessionId true inputText]) le_rfl
      refine ⟨htid, ?_, ?_⟩
      · simp only [trace_agent_interaction]
        rw [heq]
        simp
      · simp only [trace_agent_interaction]
        rw [heq]
        simp

/-- Claim C10, witness: an empty successful stream returns the minted
session id as the trace id of the success result. -/
theorem C10_session_identity_witness :
    "sid" = "sid" ∧
    Action.createTrace "sid" "Bedrock Agent Invocation" "q"
        (.obj [("timestamp", .str "ts"), ("agent_id", optStr none),
          ("agent_alias_id", optStr none)]) ∈
      (trace_agent_interaction none none "ts" "sid" "q" (.stream [] none)).1 ∧
    Action.invokeAgent none none "sid" true "q" ∈
      (trace_agent_interaction none none "ts" "sid" "q" (.stream [] none)).1 :=
  C10_session_identity none none "ts" "sid" "q" "sid" (.stream [] none) rfl

/-- Claim C4: when exactly one record of the stream raises during
processing, the controller catches it, emits exactly one
`chunk_processing_error` point event on the root span with the
exception message as input, keeps consuming all subsequent records
(the loop runs to the end of the stream), and still returns the
success result. -/
theorem C4_per_event_failure (agentId agentAliasId : Option String)
    (timestamp sessionId inputText msg : String)
    (l1 l2 : List PyValue) (e : PyValue)
    (h1 : ∀ x ∈ l1, ∀ m, (_process_trace_chunk 0 m x).2.2 = none)
    (h2 : ∀ x ∈ l2, ∀ m, (_process_trace_chunk 0 m x).2.2 = none)
    (he : ∀ m, (_process_trace_chunk 0 m e).2.2 = some msg) :
    (trace_agent_interaction agentId agentAliasId timestamp sessionId
      inputText (.stream (l1 ++ e :: l2) none)).2 = .success sessionId ∧
    ((trace_agent_interaction agentId agentAliasId timestamp sessionId
        inputText (.stream (l1 ++ e :: l2) none)).1).filter isChunkErrEvt =
      [.emitEvent 0 "chunk_processing_error" (.str msg) none] := by
  constructor
  · rfl
  · simp only [trace_agent_interaction]
    rw [runLoop_append_eq]
    have hstep : ∀ (N : Nat) (L : List Action), runLoop 0 N L (e :: l2) =
        runLoop 0 (_process_trace_chunk 0 N e).1
          ((L ++ (_process_trace_chunk 0 N e).2.1) ++
            [.emitEvent 0 "chunk_processing_error" (.str msg) none]) l2 := by
      intro N L
      simp only [runLoop, he N]
    rw [hstep]
    rw [List.filter_append]
    have hclose : ([Action.closeSpan 0 none]).filter isChunkErrEvt = [] := rfl
    rw [hclose, List.append_nil]
    rw [runLoop_filter_none l2 h2]
    rw [List.filter_append, List.filter_append]
    have hpre : ((runLoop 0 1
        ([.createTrace sessionId "Bedrock Agent Invocation" inputText
            (.obj [("timestamp", .str timestamp), ("agent_id", optStr agentId),
              ("agent_alias_id", optStr agentAliasId)]),
          .openSpan 0 "orchestration" inputText] ++
          [.invokeAgent agentId agentAliasId sessionId true inputText])
        l1).2).filter isChunkErrEvt = [] := by
      rw [runLoop_filter_none l1 h1]
      rfl
    have hacts : ((_process_trace_chunk 0 (runLoop 0 1
        ([.createTrace sessionId "Bedrock Agent Invocation" inputText
            (.obj [("timestamp", .str timestamp), ("agent_id", optStr agentId),
              ("agent_alias_id", optStr agentAliasId)]),
          .openSpan 0 "orchestration" inputText] ++
          [.invokeAgent agentId agentAliasId sessionId true inputText])
        l1).1 e).2.1).filter isChunkErrEvt = [] := by
      rw [List.filter_eq_nil_iff]
      intro a ha
      simp [(chunk_actions 0 _ e a ha).1]
    rw [hpre, hacts]
    rfl

/-- Claim C4, witness: a 5-record stream whose 3rd record raises a
(modelled) `AttributeError` yields exactly one `chunk_processing_error`
event and a success result, the last two records still being
processed. -/
theorem C4_per_event_failure_witness :
    (trace_agent_interaction none none "ts" "sid" "q"
      (.stream ([.obj [], .obj []] ++ .obj [("trace", .str "x")] ::
        [.obj [], .obj []]) none)).2 = .success "sid" ∧
    ((trace_agent_interaction none none "ts" "sid" "q"
        (.stream ([.obj [], .obj []] ++ .obj [("trace", .str "x")] ::
          [.obj [], .obj []]) none)).1).filter isChunkErrEvt =
      [.emitEvent 0 "chunk_processing_error"
        (.str "str object has no attribute get") none] :=
  C4_per_event_failure none none "ts" "sid" "q"
    "str object has no attribute get"
    [.obj [], .obj []] [.obj [], .obj []] (.obj [("trace", .str "x")])
    (by intro x hx m
        simp only [List.mem_cons, List.not_mem_nil, or_false] at hx
        rcases hx with rfl | rfl <;> rfl)
    (by intro x hx m
        simp only [List.mem_cons, List.not_mem_nil, or_false] at hx
        rcases hx with rfl | rfl <;> rfl)
    (fun m => rfl)

end AgentTrace
